import Mathlib

set_option maxRecDepth 8000

/-!
Shallow embedding of the git-bridge add-on (`git-bridge/app.py` and
`git_bridge/app.py`): the policy engine (path allow/deny matching and
secret-content scanning), the forge client and apply orchestrator with an
explicit trace of forge calls, the base64/UTF-8 file-content codecs, and
the webhook signature check.  Strings are handled through their `List Char`
data; Python regular-expression semantics (`re.match` anchored at the
start, `$` also matching before one trailing newline, `re.search`
unanchored with backtracking, `re.IGNORECASE` on ASCII letters) are
translated pattern by pattern.
-/

/-- Mirror of FastAPI's `HTTPException(status_code, detail)`. -/
structure HTTPException where
  status : Nat
  detail : String
deriving DecidableEq, Repr

/- ### Generic list-of-characters utilities -/

/-- `hasLead pre l` : `l` begins with `pre` (anchored match of a literal). -/
def hasLead : List Char → List Char → Bool
  | [], _ => true
  | _ :: _, [] => false
  | p :: ps, c :: cs => p = c && hasLead ps cs

/-- `endsWithL suf l` : `l` ends with `suf`. -/
def endsWithL (suf l : List Char) : Bool := hasLead suf.reverse l.reverse

/-- Python `$` in `re.match` also matches just before one trailing newline:
`stripNl` removes a single trailing `'\n'` if present. -/
def stripNl : List Char → List Char
  | [] => []
  | c :: cs => if cs = [] ∧ c = '\n' then [] else c :: stripNl cs

/-- No newline anywhere (Python `.` does not match `'\n'`). -/
def noNl (l : List Char) : Bool := l.all (fun c => c ≠ '\n')

/- ### Path rules (regexes of ALLOWLIST_PATTERNS / DENYLIST_PATTERNS,
matched with `re.match`, i.e. anchored at the start of the string) -/

/-- `^lit$` under `re.match`: the whole string (up to one trailing newline)
is the literal. -/
def matchLitDollar (lit : String) (s : String) : Bool :=
  stripNl s.data = lit.data

/-- `^\.ssh\/` under `re.match`: the string starts with `.ssh/`. -/
def denyDotSsh (s : String) : Bool := hasLead ".ssh/".data s.data

/-- `^.*\.SUF$` under `re.match`: the string (up to one trailing newline)
contains no newline and ends with the literal suffix. -/
def denySufx (suf : String) (s : String) : Bool :=
  noNl (stripNl s.data) && endsWithL suf.data (stripNl s.data)

/-- Character class `[A-Za-z0-9_\-\/]` of the `packages/` allow rule. -/
def segChar (c : Char) : Bool :=
  (('A' ≤ c && c ≤ 'Z') || ('a' ≤ c && c ≤ 'z') || ('0' ≤ c && c ≤ '9')
    || c = '_' || c = '-' || c = '/')

/-- `[A-Za-z0-9_\-\/]+EXT` matched against all of `m`: `m` ends with the
extension and the nonempty rest lies in the character class. -/
def segBody (ext : List Char) (m : List Char) : Bool :=
  endsWithL ext m &&
    (let t := m.take (m.length - ext.length)
     (!t.isEmpty) && t.all segChar)

/-- `^packages\/[A-Za-z0-9_\-\/]+\.ya?ml$` under `re.match`. -/
def allowPackages (s : String) : Bool :=
  let c := stripNl s.data
  hasLead "packages/".data c &&
    (segBody ".yml".data (c.drop 9) || segBody ".yaml".data (c.drop 9))

/-- `ALLOWLIST_PATTERNS` from the source, in order. -/
def ALLOWLIST_PATTERNS : List (String → Bool) :=
  [matchLitDollar "configuration.yaml",
   matchLitDollar "automations.yaml",
   matchLitDollar "scripts.yaml",
   matchLitDollar "scenes.yaml",
   allowPackages,
   matchLitDollar "go2rtc.yaml.tpl"]

/-- `DENYLIST_PATTERNS` from the source, in order. -/
def DENYLIST_PATTERNS : List (String → Bool) :=
  [denyDotSsh,
   denySufx ".pem",
   denySufx ".key",
   denySufx ".env",
   matchLitDollar ".optionb_env",
   matchLitDollar ".go2rtc_env",
   matchLitDollar "go2rtc.yaml",
   matchLitDollar "bin/ha_git_pull.sh"]

/-- `_match_any(patterns, text)` from the source. -/
def _match_any (patterns : List (String → Bool)) (text : String) : Bool :=
  patterns.any (fun p => p text)

/-- `_validate_path(path)` from the source: deny set first, then allow set. -/
def _validate_path (path : String) : Except HTTPException Unit :=
  if _match_any DENYLIST_PATTERNS path then
    .error ⟨400, "Path denied: " ++ path⟩
  else if !_match_any ALLOWLIST_PATTERNS path then
    .error ⟨400, "Path not allowed: " ++ path⟩
  else
    .ok ()

/- ### Secret content patterns (`re.search` with `re.IGNORECASE`) -/

/-- Python `\s` (whitespace class for `str` patterns). -/
def isWs (c : Char) : Bool :=
  c = ' ' || c = '\t' || c = '\n' || c = '\r' || c = '\x0b' || c = '\x0c'
    || c = '\x1c' || c = '\x1d' || c = '\x1e' || c = '\x1f'
    || c = '\x85' || c = '\xa0' || c = '\u1680'
    || ('\u2000' ≤ c && c ≤ '\u200A')
    || c = '\u2028' || c = '\u2029' || c = '\u202F' || c = '\u205F'
    || c = '\u3000'

/-- Token class `[A-Za-z0-9\-_\.]` of the bearer pattern. -/
def tokChar (c : Char) : Bool :=
  (('A' ≤ c && c ≤ 'Z') || ('a' ≤ c && c ≤ 'z') || ('0' ≤ c && c ≤ '9')
    || c = '-' || c = '_' || c = '.')

/-- Class `[^\/\s]` of the rtsp URL pattern. -/
def hostChar (c : Char) : Bool := !(c = '/') && !(isWs c)

/-- Case-insensitive literal, then continue with `k` (backtracking-free:
a literal consumes exactly its own length). -/
def litCI : List Char → (List Char → Bool) → List Char → Bool
  | [], k, cs => k cs
  | _ :: _, _, [] => false
  | p :: ps, k, c :: cs => p.toLower = c.toLower && litCI ps k cs

/-- `cls+` then continue with `k`, with full backtracking over how many
characters the `+` consumes. -/
def clsPlus (cls : Char → Bool) (k : List Char → Bool) : List Char → Bool
  | [] => false
  | c :: cs => cls c && (k cs || clsPlus cls k cs)

/-- `cls*` then continue with `k`. -/
def clsStar (cls : Char → Bool) (k : List Char → Bool) (cs : List Char) : Bool :=
  k cs || clsPlus cls k cs

/-- Accepting continuation: the rest of the pattern is empty. -/
def patEnd : List Char → Bool := fun _ => true

/-- `Authorization:\s*Bearer\s+[A-Za-z0-9\-_\.]+` at the current position. -/
def patBearerAt : List Char → Bool :=
  litCI "Authorization:".data
    (clsStar isWs (litCI "Bearer".data (clsPlus isWs (clsPlus tokChar patEnd))))

/-- `HA_TOKEN\s*=` at the current position. -/
def patHaTokenAt : List Char → Bool :=
  litCI "HA_TOKEN".data (clsStar isWs (litCI "=".data patEnd))

/-- `RTSP_PASS\s*=` at the current position. -/
def patRtspPassAt : List Char → Bool :=
  litCI "RTSP_PASS".data (clsStar isWs (litCI "=".data patEnd))

/-- `rtsp:\/\/[^\/\s]+:[^\/\s]+@` at the current position. -/
def patRtspUrlAt : List Char → Bool :=
  litCI "rtsp://".data
    (clsPlus hostChar (litCI ":".data (clsPlus hostChar (litCI "@".data patEnd))))

/-- `BEGIN\s+PRIVATE\s+KEY` at the current position. -/
def patBeginKeyAt : List Char → Bool :=
  litCI "BEGIN".data
    (clsPlus isWs (litCI "PRIVATE".data (clsPlus isWs (litCI "KEY".data patEnd))))

/-- `re.search`: try the position matcher at every start position. -/
def searchL (m : List Char → Bool) : List Char → Bool
  | [] => m []
  | c :: cs => m (c :: cs) || searchL m cs

/-- `SECRET_CONTENT_PATTERNS` from the source, in order. -/
def SECRET_CONTENT_PATTERNS : List (List Char → Bool) :=
  [patBearerAt, patHaTokenAt, patRtspPassAt, patRtspUrlAt, patBeginKeyAt]

/-- `_validate_content(path, content)` from the source. -/
def _validate_content (path content : String) : Except HTTPException Unit :=
  if SECRET_CONTENT_PATTERNS.any (fun p => searchL p content.data) then
    .error ⟨400, "Secret-like content detected in " ++ path⟩
  else
    .ok ()

deriving instance DecidableEq for Except

/- ### UTF-8 codec (Python `str.encode("utf-8")` and
`bytes.decode("utf-8", errors="replace")`), bytes as `Nat` values < 256 -/

/-- UTF-8 encoding of one unicode scalar value. -/
def utf8EncodeChar (n : Nat) : List Nat :=
  if n < 0x80 then [n]
  else if n < 0x800 then [0xC0 + n / 64, 0x80 + n % 64]
  else if n < 0x10000 then
    [0xE0 + n / 4096, 0x80 + (n / 64) % 64, 0x80 + n % 64]
  else
    [0xF0 + n / 262144, 0x80 + (n / 4096) % 64, 0x80 + (n / 64) % 64, 0x80 + n % 64]

/-- UTF-8 encoding of a character sequence. -/
def utf8EncodeList : List Char → List Nat
  | [] => []
  | c :: cs => utf8EncodeChar c.toNat ++ utf8EncodeList cs

/-- `content.encode("utf-8")` from the source. -/
def utf8EncodeStr (s : String) : List Nat := utf8EncodeList s.data

/-- Continuation byte test (`0x80 ≤ b < 0xC0`). -/
def isContB (b : Nat) : Bool := decide (0x80 ≤ b) && decide (b < 0xC0)

/-- One decoded scalar per step; each step consumes at least one byte, so
fuel equal to the byte count never runs out.  Structural in the fuel, so
the kernel can evaluate it. -/
def utf8DecodeAux : Nat → List Nat → List Nat
  | 0, _ => []
  | _ + 1, [] => []
  | fuel + 1, b :: bs =>
    if b < 0x80 then b :: utf8DecodeAux fuel bs
    else if b < 0xE0 then
      if 1 ≤ bs.length ∧ 0xC2 ≤ b ∧ isContB (bs.getD 0 0) then
        ((b - 0xC0) * 64 + (bs.getD 0 0 - 0x80)) :: utf8DecodeAux fuel (bs.drop 1)
      else 0xFFFD :: utf8DecodeAux fuel bs
    else if b < 0xF0 then
      if 2 ≤ bs.length ∧ isContB (bs.getD 0 0) ∧ isContB (bs.getD 1 0) then
        ((b - 0xE0) * 4096 + (bs.getD 0 0 - 0x80) * 64 + (bs.getD 1 0 - 0x80))
          :: utf8DecodeAux fuel (bs.drop 2)
      else 0xFFFD :: utf8DecodeAux fuel bs
    else if b < 0xF8 then
      if 3 ≤ bs.length ∧ isContB (bs.getD 0 0) ∧ isContB (bs.getD 1 0)
          ∧ isContB (bs.getD 2 0) then
        ((b - 0xF0) * 262144 + (bs.getD 0 0 - 0x80) * 4096 + (bs.getD 1 0 - 0x80) * 64
            + (bs.getD 2 0 - 0x80))
          :: utf8DecodeAux fuel (bs.drop 3)
      else 0xFFFD :: utf8DecodeAux fuel bs
    else 0xFFFD :: utf8DecodeAux fuel bs

/-- UTF-8 decoding to scalar values; malformed sequences yield the
replacement character `0xFFFD` (`errors="replace"`). -/
def utf8Decode (l : List Nat) : List Nat := utf8DecodeAux l.length l

/-- `bytes.decode("utf-8", errors="replace")` from the source. -/
def utf8DecodeStr (bs : List Nat) : String :=
  ⟨(utf8Decode bs).map Char.ofNat⟩

/- ### Base64 codec (Python `base64.b64encode` / `base64.b64decode`) -/

/-- The standard base64 alphabet. -/
def b64Table : List Char :=
  "ABCDEFGHIJKLMNOPQRSTUVWXYZabcdefghijklmnopqrstuvwxyz0123456789+/".data

/-- Alphabet character of a 6-bit value. -/
def b64Char (n : Nat) : Char := b64Table.getD n 'A'

/-- 6-bit value of an alphabet character. -/
def b64Index (c : Char) : Nat := b64Table.indexOf c

/-- `base64.b64encode` on a byte list (bytes < 256). -/
def b64encode : List Nat → List Char
  | a :: b :: c :: rest =>
    b64Char (a / 4) :: b64Char ((a % 4) * 16 + b / 16)
      :: b64Char ((b % 16) * 4 + c / 64) :: b64Char (c % 64) :: b64encode rest
  | [a, b] =>
    [b64Char (a / 4), b64Char ((a % 4) * 16 + b / 16), b64Char ((b % 16) * 4), '=']
  | [a] => [b64Char (a / 4), b64Char ((a % 4) * 16), '=', '=']
  | [] => []

/-- `base64.b64decode` on a character list (standard padded input). -/
def b64decode : List Char → List Nat
  | c1 :: c2 :: c3 :: c4 :: rest =>
    if c3 = '=' then [b64Index c1 * 4 + b64Index c2 / 16]
    else if c4 = '=' then
      [b64Index c1 * 4 + b64Index c2 / 16, (b64Index c2 % 16) * 16 + b64Index c3 / 4]
    else
      (b64Index c1 * 4 + b64Index c2 / 16)
        :: ((b64Index c2 % 16) * 16 + b64Index c3 / 4)
        :: ((b64Index c3 % 4) * 64 + b64Index c4) :: b64decode rest
  | _ => []

/-- `base64.b64encode(content.encode("utf-8")).decode("ascii")` from
`upsert_file` in the source. -/
def b64encodeStr (s : String) : String := ⟨b64encode (utf8EncodeStr s)⟩

/- ### Forge client and HTTP handlers.  Remote behavior is a `Forge`
record of response functions; every outbound HTTP request is recorded in
an explicit trace of `ForgeCall`s. -/

/-- Raw forge-side failure: the HTTP status and body of a GitHub response
with status ≥ 400 (or a transport error). -/
structure GhErr where
  status : Nat
  body : String
deriving DecidableEq, Repr

/-- `gh(...)` from the source: any failing round trip is re-raised as
`HTTPException(502, "GitHub error {status}: {text}")`. -/
def ghWrap {α : Type} : Except GhErr α → Except HTTPException α
  | .ok a => .ok a
  | .error e => .error ⟨502, "GitHub error " ++ toString e.status ++ ": " ++ e.body⟩

/-- PR-creation response fields read by the source (`number`, `html_url`). -/
structure PRResp where
  number : Nat
  html_url : String
deriving DecidableEq, Repr

/-- Response of the contents lookup inside `upsert_file`: HTTP 200 with an
optional `sha` field, HTTP 404, or anything else. -/
inductive LookupResp where
  | found (sha : Option String)
  | notFound
  | err (status : Nat) (body : String)
deriving DecidableEq, Repr

/-- One outbound HTTP request to the forge. -/
inductive ForgeCall where
  | getRef (branch : String)
  | postRef (branch sha : String)
  | getContents (path ref : String)
  | putContents (path branch contentB64 message : String) (sha : Option String)
  | postPR (base head title body : String)
  | postLabel (pr : Nat) (label : String)
deriving DecidableEq, Repr

/-- Forge behavior: what the remote answers to each request. -/
structure Forge where
  refSha : String → Except GhErr String
  createRef : String → String → Except GhErr Unit
  lookup : String → String → LookupResp
  putFile : String → String → String → String → Option String → Except GhErr Unit
  openPR : String → String → String → String → Except GhErr PRResp
  addLabel : Nat → String → Except GhErr Unit
  getContents : String → String → Except GhErr (Option String)

/-- Startup configuration read from `/data/options.json`. -/
structure Config where
  api_key : String
  base_branch : String
  pr_label : String
deriving DecidableEq, Repr

/-- `_auth(x_api_key)` from the source (`if not x_api_key or x_api_key !=
API_KEY`): a missing or empty or mismatched header is rejected. -/
def _auth (cfg : Config) (x_api_key : Option String) : Except HTTPException Unit :=
  match x_api_key with
  | none => .error ⟨401, "Unauthorized"⟩
  | some s =>
    if s = "" ∨ s ≠ cfg.api_key then .error ⟨401, "Unauthorized"⟩ else .ok ()

/-- `get_ref_sha(branch)` from the source. -/
def get_ref_sha (f : Forge) (branch : String) :
    Except HTTPException String × List ForgeCall :=
  (ghWrap (f.refSha branch), [.getRef branch])

/-- `create_branch(new_branch, from_branch)` from the source: resolve the
base sha, then POST the new ref. -/
def create_branch (f : Forge) (new_branch from_branch : String) :
    Except HTTPException Unit × List ForgeCall :=
  match ghWrap (f.refSha from_branch) with
  | .error e => (.error e, [.getRef from_branch])
  | .ok sha => (ghWrap (f.createRef new_branch sha),
                [.getRef from_branch, .postRef new_branch sha])

/-- Python truthiness of the optional `sha` (`if sha:` drops `None` and
the empty string). -/
def shaTruthy : Option String → Option String
  | none => none
  | some s => if s = "" then none else some s

/-- `upsert_file(branch, path, content, message)` from the source: look up
the current file sha on the branch (200 → sha, 404 → none, else 502), then
PUT the base64-encoded content. -/
def upsert_file (f : Forge) (branch path content message : String) :
    Except HTTPException Unit × List ForgeCall :=
  match f.lookup path branch with
  | .err st body =>
    (.error ⟨502, "GitHub error " ++ toString st ++ ": " ++ body⟩,
     [.getContents path branch])
  | .found sha =>
    (ghWrap (f.putFile path branch (b64encodeStr content) message (shaTruthy sha)),
     [.getContents path branch,
      .putContents path branch (b64encodeStr content) message (shaTruthy sha)])
  | .notFound =>
    (ghWrap (f.putFile path branch (b64encodeStr content) message none),
     [.getContents path branch,
      .putContents path branch (b64encodeStr content) message none])

/-- One `Change` of the request body. -/
structure Change where
  path : String
  content : String
deriving DecidableEq, Repr

/-- The `/repo/apply` request body. -/
structure ApplyChangeRequest where
  branch_name : String
  commit_message : String
  changes : List Change
  pr_title : String
  pr_body : String
deriving DecidableEq, Repr

/-- The `/repo/apply` success response body. -/
structure ApplyChangeResponse where
  head_branch : String
  pr_number : Nat
  pr_url : String
deriving DecidableEq, Repr

/-- The validation loop of `apply`: for each change, `_validate_path` then
`_validate_content`, stopping at the first failure. -/
def validate_changes : List Change → Except HTTPException Unit
  | [] => .ok ()
  | ch :: rest => do
    _validate_path ch.path
    _validate_content ch.path ch.content
    validate_changes rest

/-- The upsert loop of `apply`: sequential `upsert_file` per change, in
order, stopping at the first failure. -/
def upsert_all (f : Forge) (branch : String) :
    List Change → String → Except HTTPException Unit × List ForgeCall
  | [], _ => (.ok (), [])
  | ch :: rest, msg =>
    match upsert_file f branch ch.path ch.content msg with
    | (.error e, tr) => (.error e, tr)
    | (.ok _, tr) =>
      match upsert_all f branch rest msg with
      | (r, tr2) => (r, tr ++ tr2)

/-- The `try: add_label(...) except Exception: pass` of `apply`: the call
is made, its outcome is discarded. -/
def try_add_label (f : Forge) (n : Nat) (label : String) : List ForgeCall :=
  match f.addLabel n label with
  | .ok _ => [.postLabel n label]
  | .error _ => [.postLabel n label]

/-- The `POST /repo/apply` handler from the source. -/
def apply (cfg : Config) (f : Forge) (req : ApplyChangeRequest)
    (x_api_key : Option String) :
    Except HTTPException ApplyChangeResponse × List ForgeCall :=
  match _auth cfg x_api_key with
  | .error e => (.error e, [])
  | .ok _ =>
    match validate_changes req.changes with
    | .error e => (.error e, [])
    | .ok _ =>
      match create_branch f req.branch_name cfg.base_branch with
      | (.error e, tr) => (.error e, tr)
      | (.ok _, tr1) =>
        match upsert_all f req.branch_name req.changes req.commit_message with
        | (.error e, tr2) => (.error e, tr1 ++ tr2)
        | (.ok _, tr2) =>
          let prCall : ForgeCall :=
            .postPR cfg.base_branch req.branch_name req.pr_title req.pr_body
          match ghWrap (f.openPR cfg.base_branch req.branch_name req.pr_title
              req.pr_body) with
          | .error e => (.error e, tr1 ++ tr2 ++ [prCall])
          | .ok pr =>
            (.ok ⟨req.branch_name, pr.number, pr.html_url⟩,
             tr1 ++ tr2 ++ [prCall] ++ try_add_label f pr.number cfg.pr_label)

/-- The `GET /repo/file` response body. -/
structure FileResp where
  path : String
  ref : String
  content : String
deriving DecidableEq, Repr

/-- The `GET /repo/file` handler from the source: auth, path validation,
contents fetch, base64 + UTF-8 decode (`data.get("content", "")`). -/
def get_file (cfg : Config) (f : Forge) (path ref : String)
    (x_api_key : Option String) :
    Except HTTPException FileResp × List ForgeCall :=
  match _auth cfg x_api_key with
  | .error e => (.error e, [])
  | .ok _ =>
    match _validate_path path with
    | .error e => (.error e, [])
    | .ok _ =>
      match ghWrap (f.getContents path ref) with
      | .error e => (.error e, [.getContents path ref])
      | .ok data =>
        let content_b64 := data.getD ""
        (.ok ⟨path, ref, utf8DecodeStr (b64decode content_b64.data)⟩,
         [.getContents path ref])

/- ### Webhook service (`git_bridge/app.py`).  The HMAC-SHA256 hex digest
primitive is taken as a function parameter; the control flow around it is
what is embedded. -/

/-- Python `str.split("=", 1)[1]`: everything after the first `'='` (the
callers guarantee one is present). -/
def afterFirstEq : List Char → List Char
  | [] => []
  | '=' :: r => r
  | _ :: r => afterFirstEq r

/-- Python `str.strip()`: remove whitespace from both ends. -/
def pyStrip (l : List Char) : List Char :=
  ((l.dropWhile isWs).reverse.dropWhile isWs).reverse

/-- `verify_github_signature(body, signature_header)` from the source,
with the configured secret and the HMAC-SHA256 hex-digest primitive made
explicit.  `hmacHex secret body` stands for
`hmac.new(secret.encode("utf-8"), body, hashlib.sha256).hexdigest()`;
`hmac.compare_digest` is equality. -/
def verify_github_signature (hmacHex : String → List Nat → String)
    (secret : String) (body : List Nat) (signature_header : String) : Bool :=
  if secret = "" then true
  else if signature_header = "" || !hasLead "sha256=".data signature_header.data then
    false
  else
    pyStrip (afterFirstEq signature_header.data) = (hmacHex secret body).data

/-- The `POST /github/webhook` response body. -/
structure WebhookResp where
  ok : Bool
  error : Option String
  event : Option String
deriving DecidableEq, Repr

/-- The `POST /github/webhook` handler from the source: signature headers
are read with default `""`, the event header with default `"unknown"`. -/
def github_webhook (hmacHex : String → List Nat → String) (secret : String)
    (body : List Nat) (sigHeader eventHeader : Option String) : WebhookResp :=
  let sig := sigHeader.getD ""
  if !verify_github_signature hmacHex secret body sig then
    ⟨false, some "invalid signature", none⟩
  else
    ⟨true, none, some (eventHeader.getD "unknown")⟩

/- ### Concrete sample data used by witnesses -/

/-- Sample startup configuration. -/
def cfgS : Config := ⟨"k1", "main", "ai-change"⟩

/-- Sample PR-creation response. -/
def prS : PRResp := ⟨7, "https://github.com/o/r/pull/7"⟩

/-- Sample forge on which every operation succeeds. -/
def forgeOkS : Forge where
  refSha := fun _ => .ok "abc123"
  createRef := fun _ _ => .ok ()
  lookup := fun _ _ => .notFound
  putFile := fun _ _ _ _ _ => .ok ()
  openPR := fun _ _ _ _ => .ok prS
  addLabel := fun _ _ => .ok ()
  getContents := fun _ _ => .ok (some (b64encodeStr "hello: wörld\n"))

/-- Sample forge whose file PUT fails for `automations.yaml`. -/
def forgeFail2S : Forge :=
  { forgeOkS with
    putFile := fun path _ _ _ _ =>
      if path = "automations.yaml" then .error ⟨500, "boom"⟩ else .ok () }

/-- Sample forge whose label call fails. -/
def forgeLabelFailS : Forge :=
  { forgeOkS with addLabel := fun _ _ => .error ⟨500, "label failed"⟩ }

/-- Sample apply request with two valid changes. -/
def reqS : ApplyChangeRequest :=
  ⟨"ai/change-1", "update configs",
   [⟨"configuration.yaml", "a: 1\n"⟩, ⟨"automations.yaml", "b: 2\n"⟩],
   "AI change", "automated"⟩

/-- Sample apply request with a denied path among the changes. -/
def reqBadS : ApplyChangeRequest :=
  ⟨"ai/change-2", "update secrets",
   [⟨"configuration.yaml", "a: 1\n"⟩, ⟨".ssh/id_rsa", "x"⟩],
   "AI change", "automated"⟩

/-- Sample apply request with an empty change list. -/
def reqEmptyS : ApplyChangeRequest :=
  ⟨"ai/change-3", "noop", [], "AI change", "automated"⟩

/-- Sample HMAC-hex primitive standing in for `hmac-sha256` in witnesses. -/
def hmacS : String → List Nat → String := fun _ _ => "aa"

/-- `l` is a case-variant of the literal `lit` (same letters up to ASCII
case, the notion used by `re.IGNORECASE`). -/
abbrev ciVariantOf (lit : String) (l : List Char) : Prop :=
  l.map Char.toLower = lit.data.map Char.toLower

/- ### Theorems -/

/-- C1: `_validate_path` checks the deny set first and anchored at the
start of the string: a deny match fails with 400 "Path denied" no matter
what the allow set says; with no deny match and no allow match it fails
with 400 "Path not allowed"; otherwise it succeeds.  The last two
conjuncts state start-anchoring for the two prefix-shaped rules (the
remaining rules are `$`-terminated whole-string literals). -/
theorem validate_path_deny_first (p : String) :
    (_match_any DENYLIST_PATTERNS p = true →
      _validate_path p = .error ⟨400, "Path denied: " ++ p⟩) ∧
    (_match_any DENYLIST_PATTERNS p = false →
      _match_any ALLOWLIST_PATTERNS p = false →
      _validate_path p = .error ⟨400, "Path not allowed: " ++ p⟩) ∧
    (_match_any DENYLIST_PATTERNS p = false →
      _match_any ALLOWLIST_PATTERNS p = true →
      _validate_path p = .ok ()) ∧
    (hasLead ".ssh/".data p.data = false → denyDotSsh p = false) ∧
    (hasLead "packages/".data (stripNl p.data) = false → allowPackages p = false) := by
  refine ⟨fun h1 => ?_, fun h1 h2 => ?_, fun h1 h2 => ?_, fun h1 => ?_, fun h1 => ?_⟩
  · simp [_validate_path, h1]
  · simp [_validate_path, h1, h2]
  · simp [_validate_path, h1, h2]
  · simp [denyDotSsh, h1]
  · simp [allowPackages, h1]

/-- Witness for C1 at concrete paths. -/
theorem validate_path_deny_first_witness :
    _validate_path ".ssh/id_rsa" = .error ⟨400, "Path denied: .ssh/id_rsa"⟩ ∧
    _validate_path "secrets.txt" = .error ⟨400, "Path not allowed: secrets.txt"⟩ ∧
    _validate_path "configuration.yaml" = .ok () ∧
    denyDotSsh "x.ssh/id_rsa" = false :=
  ⟨(validate_path_deny_first ".ssh/id_rsa").1 (by decide),
   (validate_path_deny_first "secrets.txt").2.1 (by decide) (by decide),
   (validate_path_deny_first "configuration.yaml").2.2.1 (by decide) (by decide),
   (validate_path_deny_first "x.ssh/id_rsa").2.2.2.1 (by decide)⟩

/-- A list starts with itself followed by anything. -/
theorem hasLead_refl_append (pre rest : List Char) :
    hasLead pre (pre ++ rest) = true := by
  induction pre with
  | nil => rfl
  | cons c cs ih => simp [hasLead, ih]

/-- A list ends with its own suffix. -/
theorem endsWithL_append (t ext : List Char) : endsWithL ext (t ++ ext) = true := by
  unfold endsWithL
  rw [List.reverse_append]
  exact hasLead_refl_append ext.reverse t.reverse

/-- `stripNl` is the identity on newline-free lists. -/
theorem stripNl_eq_self (l : List Char) (h : ∀ c ∈ l, c ≠ '\n') : stripNl l = l := by
  induction l with
  | nil => rfl
  | cons c cs ih =>
    have hc : c ≠ '\n' := h c (by simp)
    simp [stripNl, hc, ih (fun x hx => h x (List.mem_cons_of_mem _ hx))]

/-- `segBody` accepts a nonempty class-conforming body followed by the
extension. -/
theorem segBody_append (t ed : List Char) (htd : t ≠ [])
    (hseg : t.all segChar = true) : segBody ed (t ++ ed) = true := by
  unfold segBody
  rw [endsWithL_append, List.length_append, Nat.add_sub_cancel, List.take_left]
  simp [htd, hseg]

/-- The `packages/` allow rule accepts `packages/<segments>.yml|.yaml` for
nonempty newline-free `<segments>` over the rule's character class. -/
theorem allowPackages_append (t ext : String)
    (hext : ext = ".yml" ∨ ext = ".yaml")
    (htd : t.data ≠ []) (hseg : t.data.all segChar = true)
    (hnl : ∀ c ∈ t.data, c ≠ '\n') :
    allowPackages ("packages/" ++ t ++ ext) = true := by
  have hnonl : ∀ c ∈ "packages/".data ++ (t.data ++ ext.data), c ≠ '\n' := by
    intro c hc
    rcases List.mem_append.1 hc with h | h
    · intro hceq
      subst hceq
      exact absurd h (by decide)
    · rcases List.mem_append.1 h with h | h
      · exact hnl c h
      · intro hceq
        subst hceq
        rcases hext with rfl | rfl
        · exact absurd h (by decide)
        · exact absurd h (by decide)
  have hd : ("packages/" ++ t ++ ext).data =
      "packages/".data ++ (t.data ++ ext.data) := by
    simp [String.data_append]
  have hstrip : stripNl ("packages/" ++ t ++ ext).data =
      "packages/".data ++ (t.data ++ ext.data) := by
    rw [hd]
    exact stripNl_eq_self _ hnonl
  show (hasLead "packages/".data (stripNl ("packages/" ++ t ++ ext).data) &&
    (segBody ".yml".data ((stripNl ("packages/" ++ t ++ ext).data).drop 9) ||
     segBody ".yaml".data ((stripNl ("packages/" ++ t ++ ext).data).drop 9))) = true
  rw [hstrip, hasLead_refl_append,
    show ("packages/".data ++ (t.data ++ ext.data)).drop 9 = t.data ++ ext.data from
      List.drop_left "packages/".data (t.data ++ ext.data)]
  rcases hext with rfl | rfl
  · rw [show (".yml" : String).data = ['.', 'y', 'm', 'l'] from rfl,
      segBody_append t.data ['.', 'y', 'm', 'l'] htd hseg]
    simp
  · rw [show (".yaml" : String).data = ['.', 'y', 'a', 'm', 'l'] from rfl,
      segBody_append t.data ['.', 'y', 'a', 'm', 'l'] htd hseg]
    simp

/-- C7: every path of one of the allowlisted shapes (`configuration.yaml`,
`automations.yaml`, `scripts.yaml`, `scenes.yaml`, or
`packages/<segments>.yml|.yaml` with nonempty `<segments>` over
`[A-Za-z0-9_\-\/]`) that matches no deny rule passes `_validate_path`. -/
theorem validate_path_allows_shapes (p : String)
    (hshape :
      p = "configuration.yaml" ∨ p = "automations.yaml" ∨ p = "scripts.yaml" ∨
      p = "scenes.yaml" ∨
      ∃ t ext : String, (ext = ".yml" ∨ ext = ".yaml") ∧ t ≠ "" ∧
        t.data.all segChar = true ∧ p = "packages/" ++ t ++ ext)
    (hnd : _match_any DENYLIST_PATTERNS p = false) :
    _validate_path p = .ok () := by
  have hallow : _match_any ALLOWLIST_PATTERNS p = true := by
    rcases hshape with rfl | rfl | rfl | rfl | ⟨t, ext, hext, ht, hseg, rfl⟩
    · decide
    · decide
    · decide
    · decide
    · have htd : t.data ≠ [] := by
        intro hnil
        exact ht (show t = "" from congrArg String.mk hnil)
      have hnl : ∀ c ∈ t.data, c ≠ '\n' := by
        intro c hc hceq
        have := List.all_eq_true.1 hseg c hc
        rw [hceq] at this
        exact absurd this (by decide)
      have hAP := allowPackages_append t ext hext htd hseg hnl
      simp [_match_any, ALLOWLIST_PATTERNS, hAP]
  simp [_validate_path, hnd, hallow]

/-- Witness for C7 at concrete paths. -/
theorem validate_path_allows_shapes_witness :
    _validate_path "configuration.yaml" = .ok () ∧
    _validate_path "packages/light/a-b.yaml" = .ok () ∧
    _validate_path "packages/x.yml" = .ok () :=
  ⟨validate_path_allows_shapes "configuration.yaml" (Or.inl rfl) (by decide),
   validate_path_allows_shapes "packages/light/a-b.yaml"
     (Or.inr (Or.inr (Or.inr (Or.inr
       ⟨"light/a-b", ".yaml", Or.inr rfl, by decide, by decide, rfl⟩))))
     (by decide),
   validate_path_allows_shapes "packages/x.yml"
     (Or.inr (Or.inr (Or.inr (Or.inr
       ⟨"x", ".yml", Or.inl rfl, by decide, by decide, rfl⟩))))
     (by decide)⟩

/-- A position match is found by `re.search` at the current position. -/
theorem searchL_here (m : List Char → Bool) (cs : List Char) (h : m cs = true) :
    searchL m cs = true := by
  cases cs <;> simp [searchL, h]

/-- `re.search` is unanchored: a match further right is still found. -/
theorem searchL_append (m : List Char → Bool) (pre rest : List Char)
    (h : searchL m rest = true) : searchL m (pre ++ rest) = true := by
  induction pre with
  | nil => simpa
  | cons c cs ih => simp [searchL, ih]

/-- A case-insensitive literal consumes any case-variant of itself. -/
theorem litCI_append (pat b : List Char) (k : List Char → Bool) (rest : List Char)
    (hb : b.map Char.toLower = pat.map Char.toLower) (hk : k rest = true) :
    litCI pat k (b ++ rest) = true := by
  induction pat generalizing b with
  | nil =>
    cases b with
    | nil => simpa [litCI]
    | cons c cs => simp at hb
  | cons p ps ih =>
    cases b with
    | nil => simp at hb
    | cons c cs =>
      simp only [List.map_cons, List.cons.injEq] at hb
      simp [litCI, hb.1, ih cs hb.2]

/-- `cls+` consumes any nonempty class-conforming block. -/
theorem clsPlus_append (cls : Char → Bool) (k : List Char → Bool)
    (w rest : List Char) (hw : w ≠ []) (hall : ∀ c ∈ w, cls c = true)
    (hk : k rest = true) : clsPlus cls k (w ++ rest) = true := by
  induction w with
  | nil => exact absurd rfl hw
  | cons c cs ih =>
    have h1 : cls c = true := hall c (by simp)
    show clsPlus cls k (c :: (cs ++ rest)) = true
    rw [clsPlus]
    cases cs with
    | nil => simp [h1, hk]
    | cons d ds =>
      have hrec := ih (by simp) (fun x hx => hall x (List.mem_cons_of_mem _ hx))
      simp only [List.cons_append] at hrec
      simp [h1, hrec]

/-- `cls*` consumes any class-conforming block, possibly empty. -/
theorem clsStar_append (cls : Char → Bool) (k : List Char → Bool)
    (w rest : List Char) (hall : ∀ c ∈ w, cls c = true) (hk : k rest = true) :
    clsStar cls k (w ++ rest) = true := by
  cases w with
  | nil => simp [clsStar, hk]
  | cons c cs =>
    have h := clsPlus_append cls k (c :: cs) rest (by simp) hall hk
    simp only [List.cons_append] at h
    simp [clsStar, h]

/-- C3: `_validate_content` rejects, for every path, any content holding a
case-variant of `BEGIN PRIVATE KEY` (words separated by whitespace) or an
`Authorization: Bearer <token>`-shaped substring, and the scan is
unanchored (substring search) over every secret pattern. -/
theorem validate_content_detects (path content : String) :
    (∀ pre b w1 pr w2 kk post : List Char,
      content.data = pre ++ (b ++ (w1 ++ (pr ++ (w2 ++ (kk ++ post))))) →
      ciVariantOf "BEGIN" b →
      w1 ≠ [] → (∀ c ∈ w1, isWs c = true) →
      ciVariantOf "PRIVATE" pr →
      w2 ≠ [] → (∀ c ∈ w2, isWs c = true) →
      ciVariantOf "KEY" kk →
      _validate_content path content =
        .error ⟨400, "Secret-like content detected in " ++ path⟩) ∧
    (∀ pre a w1 br w2 tk post : List Char,
      content.data = pre ++ (a ++ (w1 ++ (br ++ (w2 ++ (tk ++ post))))) →
      ciVariantOf "Authorization:" a →
      (∀ c ∈ w1, isWs c = true) →
      ciVariantOf "Bearer" br →
      w2 ≠ [] → (∀ c ∈ w2, isWs c = true) →
      tk ≠ [] → (∀ c ∈ tk, tokChar c = true) →
      _validate_content path content =
        .error ⟨400, "Secret-like content detected in " ++ path⟩) ∧
    (∀ m ∈ SECRET_CONTENT_PATTERNS, ∀ pre rest : List Char,
      searchL m rest = true → searchL m (pre ++ rest) = true) := by
  refine ⟨?_, ?_, fun m _ pre rest h => searchL_append m pre rest h⟩
  · intro pre b w1 pr w2 kk post hdec hb hw1 hallw1 hpr hw2 hallw2 hkk
    have hmatch : patBeginKeyAt (b ++ (w1 ++ (pr ++ (w2 ++ (kk ++ post))))) = true := by
      unfold patBeginKeyAt
      refine litCI_append _ b _ _ hb ?_
      refine clsPlus_append _ _ w1 _ hw1 hallw1 ?_
      refine litCI_append _ pr _ _ hpr ?_
      refine clsPlus_append _ _ w2 _ hw2 hallw2 ?_
      exact litCI_append _ kk _ _ hkk rfl
    have hs : searchL patBeginKeyAt content.data = true := by
      rw [hdec]
      exact searchL_append _ pre _ (searchL_here _ _ hmatch)
    simp [_validate_content, SECRET_CONTENT_PATTERNS, hs]
  · intro pre a w1 br w2 tk post hdec ha hallw1 hbr hw2 hallw2 htk halltk
    have hmatch : patBearerAt (a ++ (w1 ++ (br ++ (w2 ++ (tk ++ post))))) = true := by
      unfold patBearerAt
      refine litCI_append _ a _ _ ha ?_
      refine clsStar_append _ _ w1 _ hallw1 ?_
      refine litCI_append _ br _ _ hbr ?_
      refine clsPlus_append _ _ w2 _ hw2 hallw2 ?_
      exact clsPlus_append _ _ tk _ htk halltk rfl
    have hs : searchL patBearerAt content.data = true := by
      rw [hdec]
      exact searchL_append _ pre _ (searchL_here _ _ hmatch)
    simp [_validate_content, SECRET_CONTENT_PATTERNS, hs]

/-- Witness for C3 at concrete contents. -/
theorem validate_content_detects_witness :
    _validate_content "configuration.yaml" "-- Begin\n\tPRIVATE key --" =
      .error ⟨400, "Secret-like content detected in configuration.yaml"⟩ ∧
    _validate_content "scripts.yaml" "h: AuThOrIzAtIoN:bEaReR abc-123." =
      .error ⟨400, "Secret-like content detected in scripts.yaml"⟩ :=
  ⟨(validate_content_detects "configuration.yaml" "-- Begin\n\tPRIVATE key --").1
    "-- ".data "Begin".data ['\n', '\t'] "PRIVATE".data [' '] "key".data " --".data
    (by decide) (by decide) (by decide) (by decide) (by decide) (by decide)
    (by decide) (by decide),
   (validate_content_detects "scripts.yaml" "h: AuThOrIzAtIoN:bEaReR abc-123.").2.1
    "h: ".data "AuThOrIzAtIoN:".data [] "bEaReR".data [' '] "abc-123.".data [] 
    (by decide) (by decide) (by decide) (by decide) (by decide) (by decide)
    (by decide) (by decide)⟩

/-- A batch containing an invalid change fails the validation loop. -/
theorem validate_changes_error (chs : List Change) (ch : Change)
    (hmem : ch ∈ chs)
    (hbad : _validate_path ch.path ≠ .ok () ∨
      _validate_content ch.path ch.content ≠ .ok ()) :
    ∃ e, validate_changes chs = .error e := by
  induction chs with
  | nil => cases hmem
  | cons c rest ih =>
    rcases List.mem_cons.1 hmem with rfl | hmem'
    · cases hvp : _validate_path ch.path with
      | error e => exact ⟨e, by simp [validate_changes, hvp, Bind.bind, Except.bind]⟩
      | ok u =>
        cases u
        cases hvc : _validate_content ch.path ch.content with
        | error e =>
          exact ⟨e, by simp [validate_changes, hvp, hvc, Bind.bind, Except.bind]⟩
        | ok v =>
          cases v
          rcases hbad with h | h
          · exact absurd hvp h
          · exact absurd hvc h
    · cases hvp : _validate_path c.path with
      | error e => exact ⟨e, by simp [validate_changes, hvp, Bind.bind, Except.bind]⟩
      | ok u =>
        cases u
        cases hvc : _validate_content c.path c.content with
        | error e =>
          exact ⟨e, by simp [validate_changes, hvp, hvc, Bind.bind, Except.bind]⟩
        | ok v =>
          cases v
          obtain ⟨e, he⟩ := ih hmem'
          exact ⟨e, by simp [validate_changes, hvp, hvc, Bind.bind, Except.bind, he]⟩

/-- C2: a batch in which any change fails path or content validation is
rejected before any mutation — `apply` returns an error and makes zero
forge calls (no branch creation, no upsert). -/
theorem apply_rejects_invalid_batch (cfg : Config) (f : Forge)
    (req : ApplyChangeRequest) (key : Option String) (ch : Change)
    (hmem : ch ∈ req.changes)
    (hbad : _validate_path ch.path ≠ .ok () ∨
      _validate_content ch.path ch.content ≠ .ok ()) :
    ∃ e, apply cfg f req key = (.error e, []) := by
  cases hauth : _auth cfg key with
  | error e => exact ⟨e, by simp [apply, hauth]⟩
  | ok u =>
    cases u
    obtain ⟨e, hval⟩ := validate_changes_error req.changes ch hmem hbad
    exact ⟨e, by simp [apply, hauth, hval]⟩

/-- Witness for C2: a batch with a denied path makes zero forge calls. -/
theorem apply_rejects_invalid_batch_witness :
    ∃ e, apply cfgS forgeOkS reqBadS (some "k1") = (.error e, []) :=
  apply_rejects_invalid_batch cfgS forgeOkS reqBadS (some "k1")
    ⟨".ssh/id_rsa", "x"⟩ (by decide) (Or.inl (by decide))

/-- C4: a request to `/repo/file` or `/repo/apply` with a missing or
mismatched `x-api-key` header fails 401 Unauthorized with no forge call
made. -/
theorem auth_gate_first (cfg : Config) (f : Forge) (path ref : String)
    (req : ApplyChangeRequest) (key : Option String)
    (hkey : key = none ∨ ∃ s, key = some s ∧ s ≠ cfg.api_key) :
    get_file cfg f path ref key = (.error ⟨401, "Unauthorized"⟩, []) ∧
    apply cfg f req key = (.error ⟨401, "Unauthorized"⟩, []) := by
  have hauth : _auth cfg key = .error ⟨401, "Unauthorized"⟩ := by
    rcases hkey with rfl | ⟨s, rfl, hs⟩
    · rfl
    · simp [_auth, hs]
  exact ⟨by simp [get_file, hauth], by simp [apply, hauth]⟩

/-- Witness for C4 with a mismatched key. -/
theorem auth_gate_first_witness :
    get_file cfgS forgeOkS "configuration.yaml" "main" (some "wrong") =
      (.error ⟨401, "Unauthorized"⟩, []) ∧
    apply cfgS forgeOkS reqS (some "wrong") = (.error ⟨401, "Unauthorized"⟩, []) :=
  auth_gate_first cfgS forgeOkS "configuration.yaml" "main" reqS (some "wrong")
    (Or.inr ⟨"wrong", rfl, by decide⟩)

/-- The label attempt always issues exactly the one label call, whatever
the forge answers. -/
theorem try_add_label_eq (f : Forge) (n : Nat) (l : String) :
    try_add_label f n l = [.postLabel n l] := by
  unfold try_add_label
  cases f.addLabel n l <;> rfl

/-- The upsert loop on a batch whose first `done` upserts succeed and
whose next upsert fails stops at the failing upsert: its result is that
error, its trace is the successful upserts' calls followed by the failing
upsert's calls, and no call is made for the remaining changes. -/
theorem upsert_all_prefix_fail (f : Forge) (branch msg : String)
    (done : List Change) (chk : Change) (rest : List Change)
    (e : HTTPException) (trK : List ForgeCall)
    (hdone : ∀ ch ∈ done,
      (upsert_file f branch ch.path ch.content msg).1 = .ok ())
    (hfail : upsert_file f branch chk.path chk.content msg = (.error e, trK)) :
    upsert_all f branch (done ++ chk :: rest) msg =
      (.error e,
       done.flatMap (fun ch => (upsert_file f branch ch.path ch.content msg).2)
         ++ trK) := by
  induction done with
  | nil => simp [upsert_all, hfail]
  | cons d ds ih =>
    have hd := hdone d (by simp)
    have hrec := ih (fun ch hch => hdone ch (List.mem_cons_of_mem _ hch))
    have hpr : upsert_file f branch d.path d.content msg =
        (.ok (), (upsert_file f branch d.path d.content msg).2) := by
      rw [← hd]
    simp only [List.cons_append, upsert_all]
    rw [hpr]
    simp only [List.append_eq]
    rw [hrec]
    simp [List.append_assoc]

/-- C5: when branch creation succeeds and some prefix of the file upserts
succeeds before upsert `k` fails, `apply` surfaces the error to the caller
and issues no forge calls beyond the failing PUT — in particular no
deletion of the created branch or of the already-upserted files (the call
vocabulary has no delete at all), so branch and earlier commits remain on
the forge. -/
theorem apply_no_rollback (cfg : Config) (f : Forge) (req : ApplyChangeRequest)
    (done : List Change) (chk : Change) (rest : List Change) (sha : String)
    (e : HTTPException) (trK : List ForgeCall)
    (hk : cfg.api_key ≠ "")
    (hch : req.changes = done ++ chk :: rest)
    (hval : validate_changes req.changes = .ok ())
    (hsha : f.refSha cfg.base_branch = .ok sha)
    (hcr : f.createRef req.branch_name sha = .ok ())
    (hdone : ∀ ch ∈ done,
      (upsert_file f req.branch_name ch.path ch.content req.commit_message).1 =
        .ok ())
    (hfail : upsert_file f req.branch_name chk.path chk.content
      req.commit_message = (.error e, trK)) :
    apply cfg f req (some cfg.api_key) =
      (.error e,
       [.getRef cfg.base_branch, .postRef req.branch_name sha] ++
         (done.flatMap fun ch =>
           (upsert_file f req.branch_name ch.path ch.content
             req.commit_message).2) ++ trK) := by
  have hauth : _auth cfg (some cfg.api_key) = .ok () := by simp [_auth, hk]
  rw [hch] at hval
  have hup := upsert_all_prefix_fail f req.branch_name req.commit_message
    done chk rest e trK hdone hfail
  simp [apply, hauth, hval, hch, create_branch, ghWrap, hsha, hcr, hup,
    List.append_assoc]

/-- Witness for C5 on a concrete forge whose second PUT fails: the branch
creation and the first file's calls stay in the trace, the failing PUT is
last, and nothing follows it. -/
theorem apply_no_rollback_witness :
    apply cfgS forgeFail2S reqS (some "k1") =
      (.error ⟨502, "GitHub error 500: boom"⟩,
       [.getRef "main", .postRef "ai/change-1" "abc123",
        .getContents "configuration.yaml" "ai/change-1",
        .putContents "configuration.yaml" "ai/change-1"
          (b64encodeStr "a: 1\n") "update configs" none,
        .getContents "automations.yaml" "ai/change-1",
        .putContents "automations.yaml" "ai/change-1"
          (b64encodeStr "b: 2\n") "update configs" none]) :=
  apply_no_rollback cfgS forgeFail2S reqS
    [⟨"configuration.yaml", "a: 1\n"⟩] ⟨"automations.yaml", "b: 2\n"⟩ []
    "abc123" ⟨502, "GitHub error 500: boom"⟩
    [.getContents "automations.yaml" "ai/change-1",
     .putContents "automations.yaml" "ai/change-1"
       (b64encodeStr "b: 2\n") "update configs" none]
    (by decide) rfl (by decide) rfl rfl (by decide) rfl

/-- C6: when branch creation, all upserts and PR creation succeed but the
label call fails, `apply` still returns success with the head branch name
and the PR's number and URL. -/
theorem apply_label_failure_swallowed (cfg : Config) (f : Forge)
    (req : ApplyChangeRequest) (sha : String) (trU : List ForgeCall)
    (pr : PRResp) (gerr : GhErr)
    (hk : cfg.api_key ≠ "")
    (hval : validate_changes req.changes = .ok ())
    (hsha : f.refSha cfg.base_branch = .ok sha)
    (hcr : f.createRef req.branch_name sha = .ok ())
    (hup : upsert_all f req.branch_name req.changes req.commit_message =
      (.ok (), trU))
    (hpr : f.openPR cfg.base_branch req.branch_name req.pr_title req.pr_body =
      .ok pr)
    (_hlab : f.addLabel pr.number cfg.pr_label = .error gerr) :
    apply cfg f req (some cfg.api_key) =
      (.ok ⟨req.branch_name, pr.number, pr.html_url⟩,
       [.getRef cfg.base_branch, .postRef req.branch_name sha] ++ trU ++
         [.postPR cfg.base_branch req.branch_name req.pr_title req.pr_body,
          .postLabel pr.number cfg.pr_label]) := by
  have hauth : _auth cfg (some cfg.api_key) = .ok () := by simp [_auth, hk]
  simp [apply, hauth, hval, create_branch, ghWrap, hsha, hcr, hup,
    try_add_label_eq, hpr]

/-- Witness for C6 on a concrete forge whose label call fails. -/
theorem apply_label_failure_swallowed_witness :
    apply cfgS forgeLabelFailS reqS (some "k1") =
      (.ok ⟨"ai/change-1", 7, "https://github.com/o/r/pull/7"⟩,
       [.getRef "main", .postRef "ai/change-1" "abc123"] ++
         [.getContents "configuration.yaml" "ai/change-1",
          .putContents "configuration.yaml" "ai/change-1"
            (b64encodeStr "a: 1\n") "update configs" none,
          .getContents "automations.yaml" "ai/change-1",
          .putContents "automations.yaml" "ai/change-1"
            (b64encodeStr "b: 2\n") "update configs" none] ++
         [.postPR "main" "ai/change-1" "AI change" "automated",
          .postLabel 7 "ai-change"]) :=
  apply_label_failure_swallowed cfgS forgeLabelFailS reqS "abc123"
    [.getContents "configuration.yaml" "ai/change-1",
     .putContents "configuration.yaml" "ai/change-1"
       (b64encodeStr "a: 1\n") "update configs" none,
     .getContents "automations.yaml" "ai/change-1",
     .putContents "automations.yaml" "ai/change-1"
       (b64encodeStr "b: 2\n") "update configs" none]
    prS ⟨500, "label failed"⟩ (by decide) (by decide) rfl rfl rfl rfl rfl

/-- C10: an apply request with an empty change list and valid credential
is not rejected: no validation and no upserts happen, the head branch is
still created from the base branch, a PR is opened, a label attempt is
made, and the call returns success with branch name, PR number and URL. -/
theorem apply_empty_changes (cfg : Config) (f : Forge)
    (req : ApplyChangeRequest) (sha : String) (pr : PRResp)
    (hk : cfg.api_key ≠ "")
    (hempty : req.changes = [])
    (hsha : f.refSha cfg.base_branch = .ok sha)
    (hcr : f.createRef req.branch_name sha = .ok ())
    (hpr : f.openPR cfg.base_branch req.branch_name req.pr_title req.pr_body =
      .ok pr) :
    apply cfg f req (some cfg.api_key) =
      (.ok ⟨req.branch_name, pr.number, pr.html_url⟩,
       [.getRef cfg.base_branch, .postRef req.branch_name sha,
        .postPR cfg.base_branch req.branch_name req.pr_title req.pr_body,
        .postLabel pr.number cfg.pr_label]) := by
  have hauth : _auth cfg (some cfg.api_key) = .ok () := by simp [_auth, hk]
  simp [apply, hauth, hempty, validate_changes, create_branch, ghWrap, hsha,
    hcr, upsert_all, try_add_label_eq, hpr]

/-- Witness for C10 with a concrete empty-change request. -/
theorem apply_empty_changes_witness :
    apply cfgS forgeOkS reqEmptyS (some "k1") =
      (.ok ⟨"ai/change-3", 7, "https://github.com/o/r/pull/7"⟩,
       [.getRef "main", .postRef "ai/change-3" "abc123",
        .postPR "main" "ai/change-3" "AI change" "automated",
        .postLabel 7 "ai-change"]) :=
  apply_empty_changes cfgS forgeOkS reqEmptyS "abc123" prS
    (by decide) rfl rfl rfl rfl

/-- The base64 alphabet decodes its own characters. -/
theorem b64Index_b64Char : ∀ k, k < 64 → b64Index (b64Char k) = k := by decide

/-- No alphabet character is the padding character. -/
theorem b64Char_ne_pad : ∀ k, k < 64 → b64Char k ≠ '=' := by decide

/-- Division and remainder of a scaled sum. -/
theorem divmod_helper (x y k : Nat) (hk : 0 < k) (hy : y < k) :
    (x * k + y) / k = x ∧ (x * k + y) % k = y := by
  constructor
  · rw [Nat.add_comm, Nat.add_mul_div_right _ _ hk, Nat.div_eq_of_lt hy,
      Nat.zero_add]
  · rw [Nat.mul_comm, Nat.mul_add_mod, Nat.mod_eq_of_lt hy]

/-- Base64 decoding inverts encoding on byte lists. -/
theorem b64_roundtrip (bs : List Nat) (h : ∀ b ∈ bs, b < 256) :
    b64decode (b64encode bs) = bs := by
  induction bs using b64encode.induct with
  | case1 a b c rest ih =>
    have ha : a < 256 := h a (by simp)
    have hb : b < 256 := h b (by simp)
    have hc : c < 256 := h c (by simp)
    have h1 : a / 4 < 64 := by omega
    have h2 : (a % 4) * 16 + b / 16 < 64 := by omega
    have h3 : (b % 16) * 4 + c / 64 < 64 := by omega
    have h4 : c % 64 < 64 := by omega
    rw [b64encode, b64decode]
    rw [if_neg (b64Char_ne_pad _ h3), if_neg (b64Char_ne_pad _ h4)]
    rw [b64Index_b64Char _ h1, b64Index_b64Char _ h2, b64Index_b64Char _ h3,
      b64Index_b64Char _ h4]
    rw [ih (fun x hx => h x (by simp [hx]))]
    obtain ⟨e2d, e2m⟩ := divmod_helper (a % 4) (b / 16) 16 (by omega) (by omega)
    obtain ⟨e3d, e3m⟩ := divmod_helper (b % 16) (c / 64) 4 (by omega) (by omega)
    rw [e2d, e2m, e3d, e3m]
    rw [show a / 4 * 4 + a % 4 = a from by omega,
      show b / 16 * 16 + b % 16 = b from by omega,
      show c / 64 * 64 + c % 64 = c from by omega]
  | case2 a b =>
    have ha : a < 256 := h a (by simp)
    have hb : b < 256 := h b (by simp)
    have h1 : a / 4 < 64 := by omega
    have h2 : (a % 4) * 16 + b / 16 < 64 := by omega
    have h3 : (b % 16) * 4 < 64 := by omega
    rw [b64encode, b64decode]
    rw [if_neg (b64Char_ne_pad _ h3), if_pos rfl]
    rw [b64Index_b64Char _ h1, b64Index_b64Char _ h2, b64Index_b64Char _ h3]
    obtain ⟨e2d, e2m⟩ := divmod_helper (a % 4) (b / 16) 16 (by omega) (by omega)
    rw [e2d, e2m]
    rw [Nat.mul_div_cancel _ (show 0 < 4 from by omega)]
    rw [show a / 4 * 4 + a % 4 = a from by omega,
      show b / 16 * 16 + b % 16 = b from by omega]
  | case3 a =>
    have ha : a < 256 := h a (by simp)
    have h1 : a / 4 < 64 := by omega
    have h2 : (a % 4) * 16 < 64 := by omega
    rw [b64encode, b64decode]
    rw [if_pos rfl]
    rw [b64Index_b64Char _ h1, b64Index_b64Char _ h2]
    rw [Nat.mul_div_cancel _ (show 0 < 16 from by omega)]
    rw [show a / 4 * 4 + a % 4 = a from by omega]
  | case4 => rfl

/-- The decoder is empty on empty input, whatever the fuel. -/
theorem utf8DecodeAux_nil (f : Nat) : utf8DecodeAux f [] = [] := by
  cases f <;> rfl

/-- UTF-8 encoding produces bytes. -/
theorem utf8EncodeChar_lt_256 (n : Nat) (h : n < 0x110000) :
    ∀ b ∈ utf8EncodeChar n, b < 256 := by
  intro b hb
  by_cases h1 : n < 0x80
  · rw [utf8EncodeChar, if_pos h1] at hb
    simp at hb
    omega
  · by_cases h2 : n < 0x800
    · rw [utf8EncodeChar, if_neg h1, if_pos h2] at hb
      simp at hb
      rcases hb with rfl | rfl <;> omega
    · by_cases h3 : n < 0x10000
      · rw [utf8EncodeChar, if_neg h1, if_neg h2, if_pos h3] at hb
        simp at hb
        rcases hb with rfl | rfl | rfl <;> omega
      · rw [utf8EncodeChar, if_neg h1, if_neg h2, if_neg h3] at hb
        simp at hb
        rcases hb with rfl | rfl | rfl | rfl <;> omega

/-- Decoding one encoded scalar consumes exactly its bytes. -/
theorem utf8DecodeAux_step (f n : Nat) (rest : List Nat) (h : n < 0x110000) :
    utf8DecodeAux (f + 1) (utf8EncodeChar n ++ rest) =
      n :: utf8DecodeAux f rest := by
  by_cases h1 : n < 0x80
  · rw [utf8EncodeChar, if_pos h1]
    rw [List.cons_append, List.nil_append, utf8DecodeAux, if_pos h1]
  · by_cases h2 : n < 0x800
    · rw [utf8EncodeChar, if_neg h1, if_pos h2]
      show utf8DecodeAux (f + 1) ((0xC0 + n / 64) :: ((0x80 + n % 64) :: rest)) = _
      rw [utf8DecodeAux, if_neg (by omega), if_pos (by omega),
        if_pos ⟨by simp, by omega, by simp [isContB]; omega⟩]
      simp only [List.getD_cons_zero, List.drop_succ_cons, List.drop_zero]
      congr 1
      omega
    · by_cases h3 : n < 0x10000
      · rw [utf8EncodeChar, if_neg h1, if_neg h2, if_pos h3]
        show utf8DecodeAux (f + 1)
          ((0xE0 + n / 4096) :: ((0x80 + n / 64 % 64) :: ((0x80 + n % 64) :: rest))) = _
        rw [utf8DecodeAux, if_neg (by omega), if_neg (by omega), if_pos (by omega),
          if_pos ⟨by simp, by simp [isContB]; omega,
            by simp [isContB, List.getD_cons_succ]; omega⟩]
        simp only [List.getD_cons_zero, List.getD_cons_succ, List.drop_succ_cons,
          List.drop_zero]
        congr 1
        omega
      · rw [utf8EncodeChar, if_neg h1, if_neg h2, if_neg h3]
        show utf8DecodeAux (f + 1)
          ((0xF0 + n / 262144) :: ((0x80 + n / 4096 % 64) ::
            ((0x80 + n / 64 % 64) :: ((0x80 + n % 64) :: rest)))) = _
        rw [utf8DecodeAux, if_neg (by omega), if_neg (by omega), if_neg (by omega),
          if_pos (by omega),
          if_pos ⟨by simp, by simp [isContB]; omega,
            by simp [isContB, List.getD_cons_succ]; omega,
            by simp [isContB, List.getD_cons_succ]; omega⟩]
        simp only [List.getD_cons_zero, List.getD_cons_succ, List.drop_succ_cons,
          List.drop_zero]
        congr 1
        omega

/-- UTF-8 encoding of a scalar is at least one byte. -/
theorem utf8EncodeChar_length_pos (n : Nat) : 1 ≤ (utf8EncodeChar n).length := by
  unfold utf8EncodeChar
  by_cases h1 : n < 0x80
  · simp [h1]
  · by_cases h2 : n < 0x800
    · simp [h1, h2]
    · by_cases h3 : n < 0x10000
      · simp [h1, h2, h3]
      · simp [h1, h2, h3]

/-- Every `Char` is a scalar value below `0x110000`. -/
theorem char_toNat_lt (c : Char) : c.toNat < 0x110000 := by
  have hv : c.toNat < 0xd800 ∨ (0xdfff < c.toNat ∧ c.toNat < 0x110000) := c.valid
  omega

/-- UTF-8 encoding of a character list produces bytes. -/
theorem utf8EncodeList_lt_256 (cs : List Char) :
    ∀ b ∈ utf8EncodeList cs, b < 256 := by
  induction cs with
  | nil => intro b hb; cases hb
  | cons c cs ih =>
    intro b hb
    rcases List.mem_append.1 hb with h | h
    · exact utf8EncodeChar_lt_256 c.toNat (char_toNat_lt c) b h
    · exact ih b h

/-- The encoded stream is at least as long as the character list. -/
theorem length_le_utf8EncodeList (cs : List Char) :
    cs.length ≤ (utf8EncodeList cs).length := by
  induction cs with
  | nil => simp [utf8EncodeList]
  | cons c cs ih =>
    have := utf8EncodeChar_length_pos c.toNat
    simp only [utf8EncodeList, List.length_append, List.length_cons]
    omega

/-- With enough fuel, decoding inverts encoding. -/
theorem utf8DecodeAux_encodeList (cs : List Char) :
    ∀ f, cs.length ≤ f →
      utf8DecodeAux f (utf8EncodeList cs) = cs.map Char.toNat := by
  induction cs with
  | nil => intro f _; exact utf8DecodeAux_nil f
  | cons c cs ih =>
    intro f hf
    obtain ⟨g, rfl⟩ : ∃ g, f = g + 1 := ⟨f - 1, by simp at hf; omega⟩
    show utf8DecodeAux (g + 1) (utf8EncodeChar c.toNat ++ utf8EncodeList cs) = _
    rw [utf8DecodeAux_step g c.toNat _ (char_toNat_lt c)]
    rw [ih g (by simp at hf; omega)]
    rfl

/-- The write-side encoding composed with the read-side decoding is the
identity on every string. -/
theorem utf8_b64_roundtrip (s : String) :
    utf8DecodeStr (b64decode (b64encodeStr s).data) = s := by
  show utf8DecodeStr (b64decode (b64encode (utf8EncodeList s.data))) = s
  rw [b64_roundtrip _ (utf8EncodeList_lt_256 s.data)]
  unfold utf8DecodeStr utf8Decode
  rw [utf8DecodeAux_encodeList s.data _ (length_le_utf8EncodeList s.data)]
  rw [List.map_map, show Char.ofNat ∘ Char.toNat = id from funext Char.ofNat_toNat,
    List.map_id]

/-- C8: round-trip — `upsert_file` writes content as base64 of its UTF-8
bytes, and `get_file` base64- and UTF-8-decodes what the forge returns, so
reading back what was written returns the content exactly; the
encode/decode composition is loss-free for every string. -/
theorem file_content_roundtrip (cfg : Config) (f : Forge) (C : String)
    (path ref branch msg : String)
    (hk : cfg.api_key ≠ "")
    (hvp : _validate_path path = .ok ())
    (hfc : f.getContents path ref = .ok (some (b64encodeStr C)))
    (hlk : f.lookup path branch = .notFound) :
    get_file cfg f path ref (some cfg.api_key) =
      (.ok ⟨path, ref, C⟩, [.getContents path ref]) ∧
    ForgeCall.putContents path branch (b64encodeStr C) msg none ∈
      (upsert_file f branch path C msg).2 := by
  have hauth : _auth cfg (some cfg.api_key) = .ok () := by simp [_auth, hk]
  constructor
  · simp [get_file, hauth, hvp, ghWrap, hfc, utf8_b64_roundtrip]
  · simp [upsert_file, hlk]

/-- Witness for C8 with multi-byte content on a concrete forge. -/
theorem file_content_roundtrip_witness :
    get_file cfgS forgeOkS "configuration.yaml" "main" (some "k1") =
      (.ok ⟨"configuration.yaml", "main", "hello: wörld\n"⟩,
       [.getContents "configuration.yaml" "main"]) ∧
    ForgeCall.putContents "configuration.yaml" "ai/change-1"
        (b64encodeStr "hello: wörld\n") "m" none ∈
      (upsert_file forgeOkS "ai/change-1" "configuration.yaml"
        "hello: wörld\n" "m").2 :=
  file_content_roundtrip cfgS forgeOkS "hello: wörld\n" "configuration.yaml"
    "main" "ai/change-1" "m" (by decide) (by decide) rfl rfl

/-- C9: with no webhook secret configured, signature verification is
skipped — it accepts every body and signature header, including a missing
one — and the event is acknowledged with `ok` and the event name; with a
secret configured, the request is accepted iff the signature header starts
with `sha256=` and the (whitespace-stripped) value after the first `=`
equals the HMAC-SHA256 hex digest of the raw body under the secret. -/
theorem webhook_signature (hmacHex : String → List Nat → String) :
    (∀ body sig, verify_github_signature hmacHex "" body sig = true) ∧
    (∀ body sigH evH, github_webhook hmacHex "" body sigH evH =
      ⟨true, none, some (evH.getD "unknown")⟩) ∧
    (∀ secret body sig, secret ≠ "" →
      (verify_github_signature hmacHex secret body sig = true ↔
        hasLead "sha256=".data sig.data = true ∧
        pyStrip (afterFirstEq sig.data) = (hmacHex secret body).data)) ∧
    (∀ secret body sigH evH, secret ≠ "" →
      ((github_webhook hmacHex secret body sigH evH).ok = true ↔
        hasLead "sha256=".data (sigH.getD "").data = true ∧
        pyStrip (afterFirstEq (sigH.getD "").data) =
          (hmacHex secret body).data)) := by
  have hver : ∀ secret body sig, secret ≠ "" →
      (verify_github_signature hmacHex secret body sig = true ↔
        hasLead "sha256=".data sig.data = true ∧
        pyStrip (afterFirstEq sig.data) = (hmacHex secret body).data) := by
    intro secret body sig hs
    cases hL : hasLead "sha256=".data sig.data with
    | false => simp [verify_github_signature, hs, hL]
    | true =>
      have hne : sig ≠ "" := by
        intro h0
        rw [h0] at hL
        exact absurd hL (by decide)
      simp [verify_github_signature, hs, hL, hne]
  refine ⟨?_, ?_, hver, ?_⟩
  · intro body sig
    simp [verify_github_signature]
  · intro body sigH evH
    simp [github_webhook, verify_github_signature]
  · intro secret body sigH evH hs
    rw [← hver secret body (sigH.getD "") hs]
    cases hvb : verify_github_signature hmacHex secret body (sigH.getD "") <;>
      simp [github_webhook, hvb]

/-- Witness for C9 at concrete secrets, bodies and headers. -/
theorem webhook_signature_witness :
    verify_github_signature hmacS "" [1, 2] "x" = true ∧
    github_webhook hmacS "" [1, 2] none (some "push") =
      ⟨true, none, some "push"⟩ ∧
    verify_github_signature hmacS "s" [1, 2] "sha256=aa" = true ∧
    (github_webhook hmacS "s" [1, 2] (some "sha256= aa ") (some "push")).ok =
      true :=
  ⟨(webhook_signature hmacS).1 [1, 2] "x",
   (webhook_signature hmacS).2.1 [1, 2] none (some "push"),
   ((webhook_signature hmacS).2.2.1 "s" [1, 2] "sha256=aa" (by decide)).mpr
     ⟨by decide, by decide⟩,
   ((webhook_signature hmacS).2.2.2 "s" [1, 2] (some "sha256= aa ")
       (some "push") (by decide)).mpr ⟨by decide, by decide⟩⟩
